import Mathlib

/-!
Shallow embedding of the venus message-pool gas-estimation engine
(`messagepool` package: `GasEstimateFeeCap`, `medianGasPremium`,
`GasEstimateGasPremium`, `GasEstimateGasLimit`, `GasEstimateCallWithGas`,
`evalMessageGasLimit`, `GasEstimateMessageGas`, `GasBatchEstimateMessageGas`),
together with theorems settling the frozen claims about it.

Modelling conventions:
- machine int64 / big.Int values are `Int`; Go's native `/` on int64 is
  `Int.tdiv` (truncation toward zero), `math/big.Int.Div` is `Int.ediv`
  (Euclidean), and Go's arithmetic right shift `>> k` is `Int.fdiv _ (2^k)`;
- Go float64 multipliers (`EstimateSpec` fields, the transitional-multiplier
  table) are modelled as exact rationals; every concrete table constant was
  checked not to straddle an integer boundary, so `int64(f*1024)` agrees with
  the exact `⌊f*1024⌋`;
- fallible external collaborators (chain tipset loading, CallWithGas,
  actor/state lookups, address resolution) are explicit environment functions
  returning `Except`/`Option` values;
- tipsets and addresses are opaque `Nat` identifiers; the environment carries
  a height function and the proof that parent tipsets have smaller height,
  which makes the fork-retry loop well-founded.
-/

namespace VenusGas

instance {ε α : Type} [DecidableEq ε] [DecidableEq α] : DecidableEq (Except ε α) := fun x y =>
  match x, y with
  | .ok a, .ok b =>
    if h : a = b then .isTrue (by rw [h]) else .isFalse (by simp [h])
  | .error a, .error b =>
    if h : a = b then .isTrue (by rw [h]) else .isFalse (by simp [h])
  | .ok _, .error _ => .isFalse (by simp)
  | .error _, .ok _ => .isFalse (by simp)

/-- `MinGasPremium = 100e3` from the messagepool source. -/
def minGasPremium : Int := 100000

/-- Modelled from the spec: the protocol `constants.BlockGasTarget`; its
definition is outside the shown sources (Filecoin mainnet value `5e9`). -/
def blockGasTarget : Int := 5000000000

/-- Modelled from the spec: the protocol `constants.BlockGasLimit`; its
definition is outside the shown sources (Filecoin mainnet value `10e9`). -/
def blockGasLimit : Int := 10000000000

/-- Modelled from the spec: `constants.MinimumBaseFee`; its definition is
outside the shown sources (Filecoin mainnet value `100`). -/
def minimumBaseFee : Int := 100

/-- Modelled from the spec: `constants.BaseFeeMaxChangeDenom`; its definition
is outside the shown sources (Filecoin mainnet value `8`). -/
def baseFeeMaxChangeDenom : Nat := 8

/-- One included message's priority fee and gas limit (`GasMeta`). -/
structure GasMeta where
  price : Int
  limit : Int
deriving Repr, DecidableEq

/-- The descending-price comparison used by `medianGasPremium`'s sort. -/
def priceDescRel (a b : GasMeta) : Prop := b.price ≤ a.price

instance : DecidableRel priceDescRel := fun a b => inferInstanceAs (Decidable (b.price ≤ a.price))

instance : IsTotal GasMeta priceDescRel := ⟨fun a b => le_total b.price a.price⟩

instance : IsTrans GasMeta priceDescRel := ⟨fun _ _ _ h1 h2 => le_trans h2 h1⟩

/-- `sort.Slice(prices, ...)` sorting descending by price.  Go's sort is an
unstable sort; we fix the deterministic insertion sort, which produces a
descending permutation of the input as the Go sort does. -/
def sortGasDesc (prices : List GasMeta) : List GasMeta :=
  List.insertionSort priceDescRel prices

/-- The selection target: `at := BlockGasTarget * blocks / 2` followed by
`at += BlockGasTarget * blocks / (2 * 20)` (int64 division). -/
def gasPremiumTarget (blocks : Int) : Int :=
  (blockGasTarget * blocks).tdiv 2 + (blockGasTarget * blocks).tdiv (2 * 20)

/-- The walk of `medianGasPremium`: `prev1, prev2 = price.Price, prev1;
at -= price.Limit; if at < 0 break`, returning the final `(prev1, prev2)`. -/
def premiumWalk (tgt p1 p2 : Int) : List GasMeta → Int × Int
  | [] => (p1, p2)
  | g :: gs =>
    let tgt' := tgt - g.limit
    if tgt' < 0 then (g.price, p1) else premiumWalk tgt' g.price p1 gs

/-- `medianGasPremium(prices, blocks)`: sort descending, walk the target down,
then return `prev1`, or the average `(prev1+prev2)/2` when `prev2` is nonzero
(`big.Div` is Euclidean division). -/
def medianGasPremium (prices : List GasMeta) (blocks : Int) : Int :=
  let sorted := sortGasDesc prices
  let pr := premiumWalk (gasPremiumTarget blocks) 0 0 sorted
  if pr.2 ≠ 0 then (pr.1 + pr.2).ediv 2 else pr.1

/-- The floor policy of `GasEstimateGasPremium`: premiums below
`MinGasPremium` are replaced by the step table indexed by `nblocksincl`
(Go constant-folds `1.5 * MinGasPremium` to `150000`). -/
def applyPremiumFloor (nblocksincl : Nat) (premium : Int) : Int :=
  if premium < minGasPremium then
    match nblocksincl with
    | 1 => 2 * minGasPremium
    | 2 => 150000
    | _ => minGasPremium
  else premium

/-- A chain message (`types.Message`); `gasFeeCap`/`gasPremium` are `none`
when they hold the `types.EmptyInt` sentinel, and addresses/params are opaque
numeric identifiers. -/
structure Message where
  fromAddr : Nat
  toAddr : Nat
  method : Nat
  params : Nat
  value : Int
  nonce : Nat
  gasLimit : Int
  gasFeeCap : Option Int
  gasPremium : Option Int
deriving Repr, DecidableEq

/-- `builtin.MethodSend` (the plain value-transfer method selector). -/
def methodSend : Nat := 0

/-- Modelled from the spec: `builtin2.MethodsPaych.Collect`, the
payment-channel "collect" method selector; its definition is outside the
shown sources (value `4` in the builtin actors). -/
def methodsPaychCollect : Nat := 4

/-- The probe message built inside `evalMessageGasLimit` and passed to
`CallWithGas`: the input message with `GasLimit = BlockGasLimit`,
`GasFeeCap = big.Zero()`, `GasPremium = big.Zero()`. -/
def probeMessage (msgIn : Message) : Message :=
  { msgIn with gasLimit := blockGasLimit, gasFeeCap := some 0, gasPremium := some 0 }

/-- The intermediate copy built at the top of `GasEstimateGasLimit`
(`GasLimit = BlockGasLimit`, `GasFeeCap = MinimumBaseFee+1`, `GasPremium = 1`);
the source only ever reads its `Nonce` (for the pending-queue cut) and does
not pass it to the evaluator. -/
def gasEstimateGasLimitProbe (msgIn : Message) : Message :=
  { msgIn with gasLimit := blockGasLimit, gasFeeCap := some (minimumBaseFee + 1),
               gasPremium := some 1 }

/-- `int64(float64(g) * o)` / `big.Float` product truncated to an integer:
modelled as the exact rational product `g * o` truncated toward zero, computed
on the fraction `(g * o.num) / o.den` (truncation does not need the
normalized form). -/
def goTruncMulQ (g : Int) (o : ℚ) : Int := (g * o.num).tdiv (o.den : Int)

/-- `int64(f * 1024)` for a nonnegative float64 multiplier `f`, modelled as
the exact `f * 1024` truncated toward zero (checked against float64 rounding
for every constant appearing in the transitional table: none straddles an
integer). -/
def goFloatFixed1024 (f : ℚ) : Int := (f.num * 1024).tdiv (f.den : Int)

/-- The method-keyed transitional multiplier table for storage-miner actors
(the `switch msgIn.Method` block of `evalMessageGasLimit`), already in the
fixed-point scale-1024 form in which the source consumes it. -/
def minerMethodMulti : Nat → Int
  | 3 => goFloatFixed1024 (mkRat 192 100)
  | 4 => goFloatFixed1024 (mkRat 172 100)
  | 6 => goFloatFixed1024 (mkRat 106 100)
  | 7 => goFloatFixed1024 (mkRat 120 100)
  | 16 => goFloatFixed1024 (mkRat 119 100)
  | 18 => goFloatFixed1024 (mkRat 173 100)
  | 23 => goFloatFixed1024 (mkRat 173 100)
  | 26 => goFloatFixed1024 (mkRat 115 100)
  | 27 => goFloatFixed1024 (mkRat 118 100)
  | _ => goFloatFixed1024 (mkRat 100 100)

/-- Outcome of `mp.sm.CallWithGas`: either an invocation result or an error,
where `fork.ErrExpensiveFork` is the distinguished retryable sentinel. -/
inductive CallErr where
  | expensiveFork
  | other (msg : String)
deriving Repr, DecidableEq

/-- The parts of `types.InvocResult` the estimator reads
(`MsgRct.ExitCode`, `MsgRct.GasUsed`, `Error`). -/
structure InvocResult where
  exitCode : Nat
  gasUsed : Int
  errMsg : String
deriving Repr, DecidableEq

/-- Outcome of the `ParentState` + `GetActor(msg.To)` lookup sequence used by
the transitional-multiplier and payment-channel special cases. -/
inductive ActorLookup where
  | stateErr (e : String)
  | actorErr (e : String)
  | notFound
  | found (isStorageMiner : Bool) (isPaymentChannel : Bool)
deriving Repr, DecidableEq

/-- The message pool's external collaborators and configuration, as consumed
by the estimation entry points. -/
structure MpoolEnv where
  /-- `ts.Height()` of a tipset. -/
  height : Nat → Nat
  /-- `ChainTipSet(ts.Parents())` / `LoadTipSet(ts.Parents())`. -/
  parent : Nat → Except String Nat
  /-- chain well-formedness: a loaded parent has strictly smaller height. -/
  parent_lt : ∀ t t', parent t = .ok t' → height t' < height t
  /-- `len(pts.Blocks())`. -/
  numBlocks : Nat → Nat
  /-- `GasPriceCache.GetTSGasStats` for a tipset. -/
  gasStats : Nat → Except String (List GasMeta)
  /-- `ts.Blocks()[0].ParentBaseFee`. -/
  baseFee : Nat → Int
  /-- `mp.api.ChainHead`. -/
  head : Except String Nat
  /-- `mp.api.ChainTipSet` on a tipset key. -/
  chainTipSet : Nat → Except String Nat
  /-- `mp.sm.CallWithGas(msg, priorMsgs, ts)`. -/
  callWithGas : Message → List Message → Nat → Except CallErr InvocResult
  /-- the `ParentState`/`GetActor(msg.To)` lookup at a tipset. -/
  lookup : Nat → ActorLookup
  /-- `mp.forkParams.UpgradeHyggeHeight`. -/
  upgradeHyggeHeight : Int
  /-- `mp.sm.ResolveToDeterministicAddress(addr, ts)`. -/
  resolve : Nat → Nat → Except String Nat
  /-- `mp.PendingFor(addr)`: the sender's pending messages and the tipset. -/
  pendingFor : Nat → List Message × Nat
  /-- `uint64(noise * (1 << 32))` for the jitter draw of this call. -/
  noiseFixed : Nat
  /-- `mp.GetMaxFee` for `CapGasFee`. -/
  maxFee : Int
  /-- `mp.GetConfig().GasLimitOverestimation`. -/
  gasLimitOverestimation : ℚ

/-- The ancestor-window accumulation loop of `GasEstimateGasPremium`:
`for i := 0; i < nblocksincl*2; i++ { if ts.Height() == 0 break; load parent;
blocks += len(pts.Blocks()); stats; prices append; ts = pts }`. -/
def collectWindow (env : MpoolEnv) : Nat → Nat → List GasMeta → Nat →
    Except String (List GasMeta × Nat)
  | 0, _, prices, blocks => .ok (prices, blocks)
  | n + 1, ts, prices, blocks =>
    if env.height ts = 0 then .ok (prices, blocks)
    else
      match env.parent ts with
      | .error e => .error e
      | .ok pts =>
        match env.gasStats pts with
        | .error e => .error e
        | .ok meta => collectWindow env n pts (prices ++ meta) (blocks + env.numBlocks pts)

/-- `GasEstimateGasPremium` before the jitter step: normalize
`nblocksincl == 0` to 1, walk `2*nblocksincl` ancestor generations from the
chain head, take the percentile premium and apply the floor policy.
The `sender`/`gaslimit`/`tsk` parameters are carried but, as in the source,
never read. -/
def gasEstimateGasPremiumPreJitter (env : MpoolEnv) (nblocksincl : Nat)
    (sender : Nat) (gaslimit : Int) (tsk : Nat) : Except String Int :=
  let n := if nblocksincl = 0 then 1 else nblocksincl
  match env.head with
  | .error e => .error e
  | .ok ts =>
    match collectWindow env (n * 2) ts [] 0 with
    | .error e => .error e
    | .ok pb => .ok (applyPremiumFloor n (medianGasPremium pb.1 (pb.2 : Int)))

/-- `GasEstimateGasPremium`: the pre-jitter premium followed by the
fixed-point jitter `premium * (uint64(noise*(1<<32))+1) / (1<<32)`
(`BigMul`/`BigDiv`; the noise draw is supplied by the environment). -/
def gasEstimateGasPremium (env : MpoolEnv) (nblocksincl : Nat)
    (sender : Nat) (gaslimit : Int) (tsk : Nat) : Except String Int :=
  match gasEstimateGasPremiumPreJitter env nblocksincl sender gaslimit tsk with
  | .error e => .error e
  | .ok premium => .ok ((premium * ((env.noiseFixed : Int) + 1)).ediv (2 ^ 32))

/-- `uint64(increaseFactor * (1 << 8))` where
`increaseFactor = (1 + 1/BaseFeeMaxChangeDenom)^maxqueueblks`: modelled as the
exact `⌊(9/8)^n * 2^8⌋`, which Nat division realizes exactly. -/
def increaseFactorFixed (maxqueueblks : Nat) : Nat :=
  (baseFeeMaxChangeDenom + 1) ^ maxqueueblks * 2 ^ 8 / baseFeeMaxChangeDenom ^ maxqueueblks

/-- The pure fee-cap projection of `GasEstimateFeeCap`:
`BigDiv(BigMul(parentBaseFee, factor), 1<<8)` plus the message's own premium
when it is not the `EmptyInt` sentinel. -/
def projectFeeCap (parentBaseFee : Int) (gasPremium : Option Int) (maxqueueblks : Nat) : Int :=
  let out := (parentBaseFee * (increaseFactorFixed maxqueueblks : Int)).ediv (2 ^ 8)
  match gasPremium with
  | some p => out + p
  | none => out

/-- `GasEstimateFeeCap(msg, maxqueueblks, tsk)`: resolves the chain head
(ignoring `tsk`), projects the base fee forward and adds the message's
premium. -/
def gasEstimateFeeCap (env : MpoolEnv) (msgPremium : Option Int)
    (maxqueueblks : Nat) (tsk : Nat) : Except String Int :=
  match env.head with
  | .error e => .error e
  | .ok ts => .ok (projectFeeCap (env.baseFee ts) msgPremium maxqueueblks)

/-- Fuel-indexed implementation of the fork-retry loop shared by
`evalMessageGasLimit` and `GasEstimateCallWithGas`: call `CallWithGas`; on
`fork.ErrExpensiveFork` step to the parent tipset and retry (a parent-load
failure is terminal); any other call error is terminal; otherwise return the
result together with the tipset finally used.  The fuel only serves
structural termination: `callWithGasLoop` supplies `height ts + 1`, which
`MpoolEnv.parent_lt` makes sufficient, so the exhaustion branch is
unreachable (`callLoopFuel_fuel_irrel` shows any sufficient fuel gives the
same result, exactly the Go loop's behavior). -/
def callLoopFuel (env : MpoolEnv) (msg : Message) (priorMsgs : List Message) :
    Nat → Nat → Except String (Nat × InvocResult)
  | 0, _ => .error "unreachable: retry fuel exhausted"
  | fuel + 1, ts =>
    match env.callWithGas msg priorMsgs ts with
    | .ok res => .ok (ts, res)
    | .error (.other e) => .error ("CallWithGas failed: " ++ e)
    | .error .expensiveFork =>
      match env.parent ts with
      | .error e => .error ("getting parent tipset: " ++ e)
      | .ok ts' => callLoopFuel env msg priorMsgs fuel ts'

/-- The fork-retry loop (`for { res, err = CallWithGas(...); if err !=
fork.ErrExpensiveFork { break }; ts, err = ChainTipSet(ts.Parents()); ... }`). -/
def callWithGasLoop (env : MpoolEnv) (msg : Message) (priorMsgs : List Message)
    (ts : Nat) : Except String (Nat × InvocResult) :=
  callLoopFuel env msg priorMsgs (env.height ts + 1) ts

/-- The transitional multiplier of `evalMessageGasLimit`, already in the
`int64(transitionalMulti*1024)` form in which the source consumes it: inside
the 20-height window before `UpgradeHyggeHeight`, `3.0` for `MethodSend`,
the method table for storage-miner actors, and `1.0` otherwise (state-lookup
failures included); outside the window, `1.0`. -/
def transitionalMultiFixed (env : MpoolEnv) (msgIn : Message) (ts : Nat) : Int :=
  if (env.height ts : Int) ≤ env.upgradeHyggeHeight ∧
      env.upgradeHyggeHeight - (env.height ts : Int) ≤ 20 then
    if msgIn.method = methodSend then goFloatFixed1024 (mkRat 300 100)
    else
      match env.lookup ts with
      | .found isMiner _ => if isMiner then minerMethodMulti msgIn.method else goFloatFixed1024 (mkRat 100 100)
      | _ => goFloatFixed1024 (mkRat 100 100)
  else goFloatFixed1024 (mkRat 100 100)

/-- `ret = (ret * int64(transitionalMulti*1024)) >> 10` (arithmetic shift =
floor division by 1024). -/
def transitionalCorrectedGas (env : MpoolEnv) (msgIn : Message) (ts : Nat)
    (gasUsed : Int) : Int :=
  (gasUsed * transitionalMultiFixed env msgIn ts).fdiv 1024

/-- The payment-channel `Collect` special case: when the parent-state and
actor lookups succeed, the target is a payment-channel actor and the method is
`Collect`, add the `76e3` destroy-actor refund; every lookup failure is
swallowed and leaves the gas unchanged. -/
def paychCollectRefund (env : MpoolEnv) (msgIn : Message) (ts : Nat) (ret : Int) : Int :=
  match env.lookup ts with
  | .found _ isPaych =>
    if isPaych = true ∧ msgIn.method = methodsPaychCollect then ret + 76000 else ret
  | _ => ret

/-- The post-execution corrections of `evalMessageGasLimit`: transitional
multiplier then payment-channel refund. -/
def applyGasCorrections (env : MpoolEnv) (msgIn : Message) (ts : Nat) (gasUsed : Int) : Int :=
  paychCollectRefund env msgIn ts (transitionalCorrectedGas env msgIn ts gasUsed)

/-- `evalMessageGasLimit(msgIn, priorMsgs, ts)`: run the probe message through
the fork-retry loop, fail on a non-`Ok` exit code, then apply the gas
corrections at the tipset the loop settled on. -/
def evalMessageGasLimit (env : MpoolEnv) (msgIn : Message) (priorMsgs : List Message)
    (ts : Nat) : Except String Int :=
  match callWithGasLoop env (probeMessage msgIn) priorMsgs ts with
  | .error e => .error e
  | .ok tr =>
    if tr.2.exitCode ≠ 0 then
      .error ("message execution failed: exit " ++ toString tr.2.exitCode ++
              ", reason: " ++ tr.2.errMsg)
    else .ok (applyGasCorrections env msgIn tr.1 tr.2.gasUsed)

/-- The pending-queue cut of `GasEstimateGasLimit`: pending messages strictly
before the first one whose nonce equals the estimated message's nonce. -/
def pendingBefore (pending : List Message) (nonce : Nat) : List Message :=
  pending.takeWhile (fun m => m.nonce ≠ nonce)

/-- `GasEstimateGasLimit(msgIn, tsk)`: resolve the tipset key (falling back to
the chain head), resolve the sender, cut the pending queue at the message's
nonce and evaluate. -/
def gasEstimateGasLimit (env : MpoolEnv) (msgIn : Message) (tsk : Option Nat) :
    Except String Int :=
  let keyRes : Except String Nat :=
    match tsk with
    | none =>
      match env.head with
      | .error e => .error ("getting head: " ++ e)
      | .ok ts => .ok ts
    | some k => .ok k
  match keyRes with
  | .error e => .error e
  | .ok key =>
    match env.chainTipSet key with
    | .error e => .error ("getting tipset: " ++ e)
    | .ok currTS =>
      let msg := gasEstimateGasLimitProbe msgIn
      match env.resolve msgIn.fromAddr currTS with
      | .error e => .error ("getting key address: " ++ e)
      | .ok fromA =>
        let pts := env.pendingFor fromA
        evalMessageGasLimit env msgIn (pendingBefore pts.1 msg.nonce) pts.2
/-- `types.EstimateSpec`: the per-message over-estimation multipliers
(float64 fields modelled as rationals). -/
structure EstimateSpec where
  gasOverEstimation : ℚ
  gasOverPremium : ℚ
deriving Repr, DecidableEq

/-- `types.EstimateMessage`: a message plus its optional spec (`none` models
a nil `*EstimateSpec`). -/
structure EstimateMessage where
  msg : Message
  spec : Option EstimateSpec
deriving Repr, DecidableEq

/-- `types.EstimateResult`: the (possibly partially filled) message and an
optional error string. -/
structure EstimateResult where
  msg : Message
  err : Option String
deriving Repr, DecidableEq

/-- Modelled from the spec: `CapGasFee(mp.GetMaxFee, msg, spec)` (§4.6
FeeCapper), whose definition is not among the shown sources — clamp
`gasFeeCap` so that `gasLimit × gasFeeCap` never exceeds the configured
maximum total spend, reducing it no further down than `gasPremium`; only the
fee cap is touched. -/
def capGasFee (maxFee : Int) (msg : Message) : Message :=
  let cap := msg.gasFeeCap.getD 0
  let prem := msg.gasPremium.getD 0
  let bound := if msg.gasLimit ≤ 0 then cap else min cap (maxFee.ediv msg.gasLimit)
  { msg with gasFeeCap := some (max bound prem) }

/-- The gas-limit fill of `GasEstimateMessageGas`: when `GasLimit == 0`,
estimate it and scale by the spec's `GasOverEstimation` when that is
present and positive, by the pool default otherwise. -/
def fillGasLimitSingle (env : MpoolEnv) (msg : Message) (spec : Option EstimateSpec) :
    Except String Message :=
  if msg.gasLimit = 0 then
    match gasEstimateGasLimit env msg none with
    | .error e => .error ("estimating gas used: " ++ e)
    | .ok g =>
      let over :=
        match spec with
        | some sp => if 0 < sp.gasOverEstimation then sp.gasOverEstimation
                     else env.gasLimitOverestimation
        | none => env.gasLimitOverestimation
      .ok { msg with gasLimit := goTruncMulQ g over }
  else .ok msg

/-- The premium fill shared by the single and batch paths: when `GasPremium`
is the `EmptyInt` sentinel or zero, estimate it (with `nblocksincl = 10`) and
scale by the spec's `GasOverPremium` when present and positive. -/
def fillGasPremium (env : MpoolEnv) (msg : Message) (spec : Option EstimateSpec)
    (errLabel : String) : Except String Message :=
  if msg.gasPremium = none ∨ msg.gasPremium = some 0 then
    match gasEstimateGasPremium env 10 msg.fromAddr msg.gasLimit 0 with
    | .error e => .error (errLabel ++ e)
    | .ok p =>
      let p' :=
        match spec with
        | some sp => if 0 < sp.gasOverPremium then goTruncMulQ p sp.gasOverPremium else p
        | none => p
      .ok { msg with gasPremium := some p' }
  else .ok msg

/-- The fee-cap fill shared by the single and batch paths: when `GasFeeCap`
is the `EmptyInt` sentinel or zero, project it (with `maxqueueblks = 20`). -/
def fillGasFeeCap (env : MpoolEnv) (msg : Message) : Except String Message :=
  if msg.gasFeeCap = none ∨ msg.gasFeeCap = some 0 then
    match gasEstimateFeeCap env msg.gasPremium 20 0 with
    | .error e => .error ("estimating fee cap: " ++ e)
    | .ok c => .ok { msg with gasFeeCap := some c }
  else .ok msg

/-- `GasEstimateMessageGas(estimateMessage, tsk)` for a non-nil message:
fill gas limit, premium and fee cap in order, then apply `CapGasFee`;
any step error aborts the call.  `tsk` is, as in the source, ignored. -/
def gasEstimateMessageGas (env : MpoolEnv) (em : EstimateMessage) (tsk : Nat) :
    Except String Message :=
  match fillGasLimitSingle env em.msg em.spec with
  | .error e => .error e
  | .ok m1 =>
    match fillGasPremium env m1 em.spec "estimating gas price: " with
    | .error e => .error e
    | .ok m2 =>
      match fillGasFeeCap env m2 with
      | .error e => .error e
      | .ok m3 => .ok (capGasFee env.maxFee m3)

/-- The gas-limit stage of the batch loop: on `GasLimit == 0` evaluate the
message against the prior-message context; an evaluation error becomes a
per-message error (`.inl`), while a successful evaluation dereferences
`estimateMessage.Spec.GasOverEstimation` unconditionally — a nil spec is the
nil-pointer panic of the Go source, modelled as an abort of the whole batch
call (`.error`). -/
def batchGasLimitStage (env : MpoolEnv) (msg : Message) (spec : Option EstimateSpec)
    (priorMsgs : List Message) (ts : Nat) : Except String (Sum String Message) :=
  if msg.gasLimit = 0 then
    match evalMessageGasLimit env msg priorMsgs ts with
    | .error e => .ok (.inl ("estimating gas limit: " ++ e))
    | .ok g =>
      match spec with
      | none => .error "panic: runtime error: invalid memory address or nil pointer dereference"
      | some sp => .ok (.inr { msg with gasLimit := goTruncMulQ g sp.gasOverEstimation })
  else .ok (.inr msg)

/-- The premium stage of the batch loop, as a per-message error or an updated
message. -/
def batchPremiumStage (env : MpoolEnv) (msg : Message) (spec : Option EstimateSpec) :
    Sum String Message :=
  match fillGasPremium env msg spec "estimating gas premium: " with
  | .error e => .inl e
  | .ok m => .inr m

/-- The fee-cap stage of the batch loop, as a per-message error or an updated
message. -/
def batchFeeCapStage (env : MpoolEnv) (msg : Message) : Sum String Message :=
  match fillGasFeeCap env msg with
  | .error e => .inl e
  | .ok m => .inr m

/-- Outcome of one iteration of the batch loop: a per-message error result
(with the nonce scrubbed back to the unset sentinel `0`) or a successfully
estimated message. -/
inductive BatchStepOut where
  | failed (res : Message) (errMsg : String)
  | success (res : Message)
deriving Repr, DecidableEq

/-- One iteration of the `GasBatchEstimateMessageGas` loop body: assign the
running nonce, run the three fill stages (any per-message failure scrubs the
nonce to 0 and records the error), and cap the fee on success. -/
def batchEstimateStep (env : MpoolEnv) (em : EstimateMessage) (priorMsgs : List Message)
    (ts : Nat) (fromNonce : Nat) : Except String BatchStepOut :=
  let msg0 := { em.msg with nonce := fromNonce }
  match batchGasLimitStage env msg0 em.spec priorMsgs ts with
  | .error e => .error e
  | .ok (.inl emsg) => .ok (.failed { msg0 with nonce := 0 } emsg)
  | .ok (.inr m1) =>
    match batchPremiumStage env m1 em.spec with
    | .inl emsg => .ok (.failed { m1 with nonce := 0 } emsg)
    | .inr m2 =>
      match batchFeeCapStage env m2 with
      | .inl emsg => .ok (.failed { m2 with nonce := 0 } emsg)
      | .inr m3 => .ok (.success (capGasFee env.maxFee m3))

/-- The `GasBatchEstimateMessageGas` loop: one `EstimateResult` per input in
order; a successful message is appended to the shared prior-message context
and consumes the next nonce, a failed message consumes nothing. -/
def batchEstimateLoop (env : MpoolEnv) (ts : Nat) :
    List EstimateMessage → List Message → Nat → Except String (List EstimateResult)
  | [], _, _ => .ok []
  | em :: rest, priorMsgs, fromNonce =>
    match batchEstimateStep env em priorMsgs ts fromNonce with
    | .error e => .error e
    | .ok (.failed m emsg) =>
      match batchEstimateLoop env ts rest priorMsgs fromNonce with
      | .error e => .error e
      | .ok rs => .ok ({ msg := m, err := some emsg } :: rs)
    | .ok (.success m) =>
      match batchEstimateLoop env ts rest (priorMsgs ++ [m]) (fromNonce + 1) with
      | .error e => .error e
      | .ok rs => .ok ({ msg := m, err := none } :: rs)

/-- `GasBatchEstimateMessageGas(estimateMessages, fromNonce, tsk)`: reject an
empty batch, resolve the shared sender and pending context once (the batch
takes the whole pending queue as prior messages), then run the loop. -/
def gasBatchEstimateMessageGas (env : MpoolEnv) (ems : List EstimateMessage)
    (fromNonce : Nat) (tsk : Nat) : Except String (List EstimateResult) :=
  match ems with
  | [] => .error "estimate messages are empty"
  | em0 :: _ =>
    match env.chainTipSet tsk with
    | .error e => .error ("getting tipset: " ++ e)
    | .ok currTS =>
      match env.resolve em0.msg.fromAddr currTS with
      | .error e => .error ("getting key address: " ++ e)
      | .ok fromA =>
        let pts := env.pendingFor fromA
        batchEstimateLoop env pts.2 ems pts.1 fromNonce

/-- Reference description of the nonce discipline the batch loop actually
implements: successes take consecutive nonces from `start`, failures carry
the unset sentinel `0` and do not consume a nonce. -/
def specNonces (start : Nat) : List Bool → List Nat
  | [] => []
  | true :: bs => start :: specNonces (start + 1) bs
  | false :: bs => 0 :: specNonces start bs

/-- Index of the first entry of the walk at which the running target goes
negative, as described by the spec's percentile-selection step. -/
def firstCross (tgt : Int) : List GasMeta → Option Nat
  | [] => none
  | g :: gs => if tgt - g.limit < 0 then some 0 else (firstCross (tgt - g.limit) gs).map (· + 1)

/-- Price of the `i`-th entry of a sorted window (0 when out of range, as the
walk's accumulators start at 0). -/
def priceAt (l : List GasMeta) (i : Nat) : Int := (l.getD i ⟨0, 0⟩).price

/-- A concrete, fully benign environment used to instantiate theorems on
closed inputs: the chain is `t, t-1, ..., 0` with genesis at height 0, every
call succeeds with zero gas, and the jitter draw is the neutral
`2^32 - 1` (so the fixed-point jitter multiplies by exactly `2^32/2^32`). -/
def baseEnv : MpoolEnv where
  height := id
  parent := fun t => if t = 0 then .error "genesis has no parent" else .ok (t - 1)
  parent_lt := by
    intro t t' h
    by_cases h0 : t = 0
    · simp [h0] at h
    · simp [h0] at h
      simp only [id_eq]
      omega
  numBlocks := fun _ => 1
  gasStats := fun _ => .ok []
  baseFee := fun _ => 100
  head := .ok 0
  chainTipSet := fun k => .ok k
  callWithGas := fun _ _ _ => .ok ⟨0, 0, ""⟩
  lookup := fun _ => .notFound
  upgradeHyggeHeight := -1000
  resolve := fun a _ => .ok a
  pendingFor := fun _ => ([], 0)
  noiseFixed := 2 ^ 32 - 1
  maxFee := 1000000000000
  gasLimitOverestimation := mkRat 5 4

/-- A fully-specified message: all gas fields already set, so the batch
stages leave it alone. -/
def msgFilled : Message :=
  { fromAddr := 1, toAddr := 2, method := 0, params := 0, value := 0, nonce := 0,
    gasLimit := 100, gasFeeCap := some 7, gasPremium := some 5 }

/-- `msgFilled` with an unset gas limit, forcing the batch gas-limit stage. -/
def msgNoLimit : Message := { msgFilled with gasLimit := 0 }

/-- Environment in which every `CallWithGas` fails with a non-fork error. -/
def envCallFails : MpoolEnv :=
  { baseEnv with callWithGas := fun _ _ _ => .error (.other "forced failure") }

/-- Environment in which every `CallWithGas` succeeds with 1000 gas used. -/
def envCall1000 : MpoolEnv :=
  { baseEnv with callWithGas := fun _ _ _ => .ok ⟨0, 1000, ""⟩ }

/-- Environment whose evaluator reports, as its gas-used figure, the premium
and fee cap of the message it received (`premium * 1000 + feeCap`), exposing
which probe message actually reaches `CallWithGas`. -/
def envEchoFees : MpoolEnv :=
  { baseEnv with
      callWithGas := fun m _ _ =>
        .ok ⟨0, (m.gasPremium.getD 99) * 1000 + (m.gasFeeCap.getD 99), ""⟩ }

/-- The five-message batch of the spec's nonce example: messages 1,2,4,5 are
fully specified and succeed without touching the evaluator, message 3 needs a
gas limit and is forced to fail estimation. -/
def batchFiveMsgs : List EstimateMessage :=
  [⟨msgFilled, none⟩, ⟨msgFilled, none⟩, ⟨msgNoLimit, some ⟨1, 0⟩⟩,
   ⟨msgFilled, none⟩, ⟨msgFilled, none⟩]












/-- C10: `GasEstimateFeeCap` and `GasEstimateGasPremium` ignore their
tipset-key argument — any two calls differing only in the supplied key return
the same result (both resolve and use the chain head carried by the
environment) — and the premium estimator treats `nblocksincl = 0` as `1`. -/
theorem tipsetKeyIgnoredByEstimators (env : MpoolEnv) (q : Option Int)
    (maxqueueblks : Nat) (n s : Nat) (gl : Int) (tsk1 tsk2 : Nat) :
    gasEstimateFeeCap env q maxqueueblks tsk1 = gasEstimateFeeCap env q maxqueueblks tsk2 ∧
    gasEstimateGasPremium env n s gl tsk1 = gasEstimateGasPremium env n s gl tsk2 ∧
    gasEstimateGasPremium env 0 s gl tsk1 = gasEstimateGasPremium env 1 s gl tsk1 := by
  exact ⟨rfl, rfl, rfl⟩

theorem increaseFactorFixed_le_succ (n : Nat) :
    increaseFactorFixed n ≤ increaseFactorFixed (n + 1) := by
  unfold increaseFactorFixed baseFeeMaxChangeDenom
  have h8 : 0 < (8 : Nat) ^ (n + 1) := Nat.pos_pow_of_pos _ (by norm_num)
  rw [Nat.le_div_iff_mul_le h8]
  have h1 : (8 + 1) ^ n * 2 ^ 8 / 8 ^ n * 8 ^ n ≤ (8 + 1) ^ n * 2 ^ 8 :=
    Nat.div_mul_le_self _ _
  calc (8 + 1) ^ n * 2 ^ 8 / 8 ^ n * 8 ^ (n + 1)
      = (8 + 1) ^ n * 2 ^ 8 / 8 ^ n * 8 ^ n * 8 := by rw [pow_succ]; ring
    _ ≤ (8 + 1) ^ n * 2 ^ 8 * 8 := Nat.mul_le_mul_right _ h1
    _ ≤ (8 + 1) ^ n * 2 ^ 8 * (8 + 1) := Nat.mul_le_mul_left _ (by norm_num)
    _ = (8 + 1) ^ (n + 1) * 2 ^ 8 := by rw [pow_succ]; ring

theorem increaseFactorFixed_mono : Monotone increaseFactorFixed :=
  monotone_nat_of_le_succ increaseFactorFixed_le_succ

theorem projectFeeCap_mono (bf : Int) (q : Option Int) (n₁ n₂ : Nat)
    (hbf : 0 ≤ bf) (h : n₁ ≤ n₂) :
    projectFeeCap bf q n₁ ≤ projectFeeCap bf q n₂ := by
  unfold projectFeeCap
  have h1 : bf * (increaseFactorFixed n₁ : Int) ≤ bf * (increaseFactorFixed n₂ : Int) := by
    apply mul_le_mul_of_nonneg_left _ hbf
    exact_mod_cast increaseFactorFixed_mono h
  have h2 : (bf * (increaseFactorFixed n₁ : Int)).ediv (2 ^ 8) ≤
      (bf * (increaseFactorFixed n₂ : Int)).ediv (2 ^ 8) :=
    Int.ediv_le_ediv (by norm_num) h1
  cases q with
  | none => exact h2
  | some p => exact add_le_add_right h2 p

/-- C7: for a fixed base fee and message, the fee cap projected by
`GasEstimateFeeCap` is monotone non-decreasing in the inclusion-delay window
`maxqueueblks` (base fees are nonnegative; the factor `(9/8)^n` scaled by
`2^8` and floored is monotone, and so is its application). -/
theorem feeCapMonotoneInDelay (env : MpoolEnv) (q : Option Int) (ts : Nat)
    (n₁ n₂ tsk1 tsk2 : Nat) (c₁ c₂ : Int)
    (hh : env.head = .ok ts) (hbf : 0 ≤ env.baseFee ts) (hn : n₁ ≤ n₂)
    (h₁ : gasEstimateFeeCap env q n₁ tsk1 = .ok c₁)
    (h₂ : gasEstimateFeeCap env q n₂ tsk2 = .ok c₂) : c₁ ≤ c₂ := by
  unfold gasEstimateFeeCap at h₁ h₂
  rw [hh] at h₁ h₂
  simp only [Except.ok.injEq] at h₁ h₂
  rw [← h₁, ← h₂]
  exact projectFeeCap_mono _ q n₁ n₂ hbf hn

/-- Witness for C7 at a concrete input: `baseEnv` has head base fee 100, and
the projected caps for windows 1 and 2 are 112 and 126. -/
theorem feeCapMonotoneInDelay_witness : (112 : Int) ≤ 126 :=
  feeCapMonotoneInDelay baseEnv none 0 1 2 0 0 112 126 rfl (by decide) (by decide)
    (by decide) (by decide)

theorem premiumWalk_zero (l : List GasMeta) (hz : ∀ g ∈ l, g.price = 0) (tgt : Int) :
    premiumWalk tgt 0 0 l = (0, 0) := by
  induction l generalizing tgt with
  | nil => rfl
  | cons g gs ih =>
    have hg : g.price = 0 := hz g (List.mem_cons_self g gs)
    have hgs : ∀ x ∈ gs, x.price = 0 := fun x hx => hz x (List.mem_cons_of_mem g hx)
    simp only [premiumWalk, hg]
    split
    · rfl
    · exact ih hgs _

theorem medianGasPremium_zero (prices : List GasMeta) (blocks : Int)
    (hz : ∀ g ∈ prices, g.price = 0) : medianGasPremium prices blocks = 0 := by
  have hz' : ∀ g ∈ sortGasDesc prices, g.price = 0 := fun g hg =>
    hz g ((List.perm_insertionSort priceDescRel prices).mem_iff.mp hg)
  simp only [medianGasPremium]
  rw [premiumWalk_zero _ hz']
  simp

/-- C6: when the computed premium is below `MinGasPremium` it is replaced by
the step table — `nblocksincl = 1` gives exactly twice the minimum,
`nblocksincl = 2` exactly 1.5 times it, `nblocksincl ≥ 3` exactly the
minimum — and, with `nblocksincl = 1` and an all-zero price window, the
pre-jitter premium of `GasEstimateGasPremium` is exactly `2 * MinGasPremium`. -/
theorem premiumFloorPolicy (p : Int) (hp : p < minGasPremium) :
    applyPremiumFloor 1 p = 2 * minGasPremium ∧
    2 * applyPremiumFloor 2 p = 3 * minGasPremium ∧
    (∀ n, 3 ≤ n → applyPremiumFloor n p = minGasPremium) ∧
    (∀ (env : MpoolEnv) (ts s : Nat) (gl : Int) (tsk : Nat)
       (prices : List GasMeta) (blocks : Nat),
       env.head = .ok ts →
       collectWindow env (1 * 2) ts [] 0 = .ok (prices, blocks) →
       (∀ g ∈ prices, g.price = 0) →
       gasEstimateGasPremiumPreJitter env 1 s gl tsk = .ok (2 * minGasPremium)) := by
  refine ⟨?_, ?_, ?_, ?_⟩
  · simp [applyPremiumFloor, hp]
  · simp only [applyPremiumFloor, if_pos hp]
    decide
  · intro n hn
    simp only [applyPremiumFloor, if_pos hp]
    match n, hn with
    | n + 3, _ => rfl
  · intro env ts s gl tsk prices blocks hh hcw hz
    have h1 : (if (1 : Nat) = 0 then 1 else 1) = 1 := rfl
    simp only [gasEstimateGasPremiumPreJitter, h1, hh, hcw]
    rw [medianGasPremium_zero prices (blocks : Int) hz]
    decide

/-- Witness for C6 at concrete inputs: premium 0 is floored to 200000 /
150000 / 100000 for 1 / 2 / 3 included blocks, and `baseEnv`'s head sits at
genesis so its window is empty (vacuously all-zero), giving pre-jitter
premium 200000. -/
theorem premiumFloorPolicy_witness :
    applyPremiumFloor 1 0 = 2 * minGasPremium ∧
    2 * applyPremiumFloor 2 0 = 3 * minGasPremium ∧
    applyPremiumFloor 3 0 = minGasPremium ∧
    gasEstimateGasPremiumPreJitter baseEnv 1 0 0 0 = .ok (2 * minGasPremium) := by
  have h := premiumFloorPolicy 0 (by decide)
  exact ⟨h.1, h.2.1, h.2.2.1 3 (le_refl 3),
    h.2.2.2 baseEnv 0 0 0 0 [] 0 rfl (by decide) (by intro g hg; cases hg)⟩

theorem premiumWalk_firstCross (l : List GasMeta) :
    ∀ (tgt p1 p2 : Int) (i : Nat), firstCross tgt l = some i →
      premiumWalk tgt p1 p2 l =
        (priceAt l i, if i = 0 then p1 else priceAt l (i - 1)) := by
  induction l with
  | nil => intro tgt p1 p2 i h; simp [firstCross] at h
  | cons g gs ih =>
    intro tgt p1 p2 i h
    simp only [firstCross] at h
    simp only [premiumWalk]
    by_cases hc : tgt - g.limit < 0
    · rw [if_pos hc] at h ⊢
      simp only [Option.some.injEq] at h
      subst h
      simp [priceAt]
    · rw [if_neg hc] at h ⊢
      simp only [Option.map_eq_some'] at h
      obtain ⟨j, hj, hji⟩ := h
      subst hji
      rw [ih _ g.price p1 j hj]
      have hcur : priceAt (g :: gs) (j + 1) = priceAt gs j := rfl
      rw [hcur]
      simp only [Nat.succ_ne_zero, if_false, Nat.add_sub_cancel]
      cases j with
      | zero => simp [priceAt]
      | succ k =>
        have : priceAt (g :: gs) (k + 1) = priceAt gs k := rfl
        simp [this, priceAt]

/-- C5: `medianGasPremium` sorts the window descending by price, sets the
target to `blockGasTarget*blocks/2` plus `blockGasTarget*blocks/40`, walks
the sorted list subtracting gas limits, and at the first entry where the
running target goes negative returns the average of that entry's price and
the preceding price when the latter is nonzero, else that entry's price alone
(for the first entry the "preceding price" is the zero accumulator). -/
theorem medianGasPremiumSelection (prices : List GasMeta) (blocks : Int) (i : Nat)
    (h : firstCross (gasPremiumTarget blocks) (sortGasDesc prices) = some i) :
    (sortGasDesc prices).Sorted priceDescRel ∧
    (sortGasDesc prices).Perm prices ∧
    gasPremiumTarget blocks =
      (blockGasTarget * blocks).tdiv 2 + (blockGasTarget * blocks).tdiv 40 ∧
    medianGasPremium prices blocks =
      (if (if i = 0 then 0 else priceAt (sortGasDesc prices) (i - 1)) ≠ 0 then
        (priceAt (sortGasDesc prices) i +
          (if i = 0 then 0 else priceAt (sortGasDesc prices) (i - 1))).ediv 2
       else priceAt (sortGasDesc prices) i) := by
  refine ⟨List.sorted_insertionSort _ _, List.perm_insertionSort _ _, rfl, ?_⟩
  simp only [medianGasPremium]
  rw [premiumWalk_firstCross _ _ _ _ _ h]

/-- Witness for C5 at a concrete input: a single-entry window with price 500
and limit 200 at `blocks = 0` (target 0) crosses at index 0 and yields
premium 500. -/
theorem medianGasPremiumSelection_witness :
    (sortGasDesc [⟨500, 200⟩]).Sorted priceDescRel ∧
    (sortGasDesc [⟨500, 200⟩]).Perm [⟨500, 200⟩] ∧
    gasPremiumTarget 0 = (blockGasTarget * 0).tdiv 2 + (blockGasTarget * 0).tdiv 40 ∧
    medianGasPremium [⟨500, 200⟩] 0 =
      (if (if 0 = 0 then 0 else priceAt (sortGasDesc [⟨500, 200⟩]) (0 - 1)) ≠ 0 then
        (priceAt (sortGasDesc [⟨500, 200⟩]) 0 +
          (if 0 = 0 then 0 else priceAt (sortGasDesc [⟨500, 200⟩]) (0 - 1))).ediv 2
       else priceAt (sortGasDesc [⟨500, 200⟩]) 0) :=
  medianGasPremiumSelection [⟨500, 200⟩] 0 0 (by decide)

theorem callLoopFuel_fuel_irrel (env : MpoolEnv) (msg : Message)
    (priorMsgs : List Message) :
    ∀ f1 f2 ts, env.height ts < f1 → env.height ts < f2 →
      callLoopFuel env msg priorMsgs f1 ts = callLoopFuel env msg priorMsgs f2 ts := by
  intro f1
  induction f1 with
  | zero => intro f2 ts h1 h2; omega
  | succ k ih =>
    intro f2 ts h1 h2
    cases f2 with
    | zero => omega
    | succ m =>
      simp only [callLoopFuel]
      cases hc : env.callWithGas msg priorMsgs ts with
      | ok res => rfl
      | error err =>
        cases err with
        | other e => rfl
        | expensiveFork =>
          cases hp : env.parent ts with
          | error e => rfl
          | ok ts' =>
            have hlt := env.parent_lt ts ts' hp
            exact ih m ts' (by omega) (by omega)

/-- C4: during gas-limit estimation the fork-retry loop retries exactly on
the expensive-fork sentinel — stepping the target tipset back to its parent
and re-invoking the evaluator — a parent-load failure while retrying is
terminal, any other evaluator error is terminal, and a successful call ends
the loop at the current tipset. -/
theorem forkRetryProtocol (env : MpoolEnv) (msg : Message)
    (priorMsgs : List Message) (ts : Nat) :
    (∀ ts', env.callWithGas msg priorMsgs ts = .error .expensiveFork →
       env.parent ts = .ok ts' →
       callWithGasLoop env msg priorMsgs ts = callWithGasLoop env msg priorMsgs ts') ∧
    (∀ e, env.callWithGas msg priorMsgs ts = .error .expensiveFork →
       env.parent ts = .error e →
       callWithGasLoop env msg priorMsgs ts = .error ("getting parent tipset: " ++ e)) ∧
    (∀ e, env.callWithGas msg priorMsgs ts = .error (.other e) →
       callWithGasLoop env msg priorMsgs ts = .error ("CallWithGas failed: " ++ e)) ∧
    (∀ r, env.callWithGas msg priorMsgs ts = .ok r →
       callWithGasLoop env msg priorMsgs ts = .ok (ts, r)) := by
  refine ⟨?_, ?_, ?_, ?_⟩
  · intro ts' hc hp
    have hlt := env.parent_lt ts ts' hp
    unfold callWithGasLoop
    simp only [callLoopFuel, hc, hp]
    exact callLoopFuel_fuel_irrel env msg priorMsgs (env.height ts)
      (env.height ts' + 1) ts' (by omega) (by omega)
  · intro e hc hp
    unfold callWithGasLoop
    simp only [callLoopFuel, hc, hp]
  · intro e hc
    unfold callWithGasLoop
    simp only [callLoopFuel, hc]
  · intro r hc
    unfold callWithGasLoop
    simp only [callLoopFuel, hc]

/-- Environment whose evaluator reports the expensive-fork boundary at tipset
5 and succeeds (7 gas used) everywhere else. -/
def envForkAt5 : MpoolEnv :=
  { baseEnv with
      callWithGas := fun _ _ ts =>
        if ts = 5 then .error .expensiveFork else .ok ⟨0, 7, ""⟩ }

/-- Witness for C4 at a concrete input: at tipset 5 the boundary error makes
the loop step back to tipset 4 and return its successful result. -/
theorem forkRetryProtocol_witness :
    callWithGasLoop envForkAt5 msgFilled [] 5 = callWithGasLoop envForkAt5 msgFilled [] 4 ∧
    callWithGasLoop envForkAt5 msgFilled [] 4 = .ok (4, ⟨0, 7, ""⟩) :=
  ⟨(forkRetryProtocol envForkAt5 msgFilled [] 5).1 4 rfl rfl,
   (forkRetryProtocol envForkAt5 msgFilled [] 4).2.2.2 ⟨0, 7, ""⟩ rfl⟩

theorem gasTimes1024Fdiv (g : Int) : (g * 1024).fdiv 1024 = g :=
  Int.mul_fdiv_cancel g (by norm_num)

theorem minerMethodMulti_default (k : Nat)
    (hk : k ∉ ([3, 4, 6, 7, 16, 18, 23, 26, 27] : List Nat)) :
    minerMethodMulti k = 1024 := by
  unfold minerMethodMulti
  split <;> first | decide | simp_all

/-- C8: inside the 20-height window at or before `UpgradeHyggeHeight` the raw
gas usage is corrected in fixed point (scale 1024, shifted back): exactly
`3×` for `MethodSend`, the method-keyed table factor for storage-miner
targets (with the table's fixed-point entries equal to the stated decimal
factors 1.92, 1.72, 1.06, 1.2, 1.19, 1.73, 1.73, 1.15, 1.18 scaled by 1024
and truncated, and `1024` — i.e. `1×` — off the table), and `1×` in every
other case (non-miner actor or any failed lookup); outside the window the
gas is unchanged. -/
theorem upgradeWindowCorrection (env : MpoolEnv) (m : Message) (ts : Nat) (g : Int) :
    (¬ ((env.height ts : Int) ≤ env.upgradeHyggeHeight ∧
        env.upgradeHyggeHeight - (env.height ts : Int) ≤ 20) →
       transitionalCorrectedGas env m ts g = g) ∧
    ((env.height ts : Int) ≤ env.upgradeHyggeHeight ∧
        env.upgradeHyggeHeight - (env.height ts : Int) ≤ 20 →
       (m.method = methodSend → transitionalCorrectedGas env m ts g = 3 * g) ∧
       (∀ pc, m.method ≠ methodSend → env.lookup ts = .found true pc →
          transitionalCorrectedGas env m ts g = (g * minerMethodMulti m.method).fdiv 1024) ∧
       (∀ pc, m.method ≠ methodSend → env.lookup ts = .found false pc →
          transitionalCorrectedGas env m ts g = g) ∧
       (m.method ≠ methodSend → env.lookup ts = .notFound →
          transitionalCorrectedGas env m ts g = g) ∧
       (∀ e, m.method ≠ methodSend → env.lookup ts = .stateErr e →
          transitionalCorrectedGas env m ts g = g) ∧
       (∀ e, m.method ≠ methodSend → env.lookup ts = .actorErr e →
          transitionalCorrectedGas env m ts g = g)) ∧
    (minerMethodMulti 3 = 1966 ∧ minerMethodMulti 4 = 1761 ∧
     minerMethodMulti 6 = 1085 ∧ minerMethodMulti 7 = 1228 ∧
     minerMethodMulti 16 = 1218 ∧ minerMethodMulti 18 = 1771 ∧
     minerMethodMulti 23 = 1771 ∧ minerMethodMulti 26 = 1177 ∧
     minerMethodMulti 27 = 1208 ∧
     (∀ k, k ∉ ([3, 4, 6, 7, 16, 18, 23, 26, 27] : List Nat) →
        minerMethodMulti k = 1024)) ∧
    ((mkRat 192 100 : ℚ) = 1.92 ∧ (mkRat 172 100 : ℚ) = 1.72 ∧
     (mkRat 106 100 : ℚ) = 1.06 ∧ (mkRat 120 100 : ℚ) = 1.2 ∧
     (mkRat 119 100 : ℚ) = 1.19 ∧ (mkRat 173 100 : ℚ) = 1.73 ∧
     (mkRat 115 100 : ℚ) = 1.15 ∧ (mkRat 118 100 : ℚ) = 1.18 ∧
     (mkRat 300 100 : ℚ) = 3 ∧ (mkRat 100 100 : ℚ) = 1) := by
  refine ⟨?_, ?_, ?_, ?_⟩
  · intro hw
    unfold transitionalCorrectedGas transitionalMultiFixed
    rw [if_neg hw]
    exact gasTimes1024Fdiv g
  · intro hw
    refine ⟨?_, ?_, ?_, ?_, ?_, ?_⟩
    · intro hm
      unfold transitionalCorrectedGas transitionalMultiFixed
      rw [if_pos hw, if_pos hm]
      have h1 : g * goFloatFixed1024 (mkRat 300 100) = 3 * g * 1024 := by
        rw [show goFloatFixed1024 (mkRat 300 100) = 3072 from rfl]; ring
      rw [h1, Int.mul_fdiv_cancel _ (by norm_num)]
    · intro pc hm hl
      unfold transitionalCorrectedGas transitionalMultiFixed
      rw [if_pos hw, if_neg hm, hl]
      rfl
    · intro pc hm hl
      unfold transitionalCorrectedGas transitionalMultiFixed
      rw [if_pos hw, if_neg hm, hl]
      exact gasTimes1024Fdiv g
    · intro hm hl
      unfold transitionalCorrectedGas transitionalMultiFixed
      rw [if_pos hw, if_neg hm, hl]
      exact gasTimes1024Fdiv g
    · intro e hm hl
      unfold transitionalCorrectedGas transitionalMultiFixed
      rw [if_pos hw, if_neg hm, hl]
      exact gasTimes1024Fdiv g
    · intro e hm hl
      unfold transitionalCorrectedGas transitionalMultiFixed
      rw [if_pos hw, if_neg hm, hl]
      exact gasTimes1024Fdiv g
  · exact ⟨by decide, by decide, by decide, by decide, by decide, by decide,
      by decide, by decide, by decide, minerMethodMulti_default⟩
  · refine ⟨?_, ?_, ?_, ?_, ?_, ?_, ?_, ?_, ?_, ?_⟩ <;> norm_num [Rat.mkRat_eq_div]

/-- Environment sitting inside the upgrade window: the upgrade height is 10
and tipset heights are the identity, so every tipset of height at most 10 is
within the 20-height lookback. -/
def envInWindow : MpoolEnv := { baseEnv with upgradeHyggeHeight := 10 }

/-- Witness for C8 at a concrete input: inside the window a `MethodSend`
message with raw gas 7 is corrected to 21, and outside the window
(`baseEnv`'s upgrade height is in the past) the gas is unchanged. -/
theorem upgradeWindowCorrection_witness :
    transitionalCorrectedGas envInWindow msgFilled 5 7 = 3 * 7 ∧
    transitionalCorrectedGas baseEnv msgFilled 5 7 = 7 :=
  ⟨((upgradeWindowCorrection envInWindow msgFilled 5 7).2.1 (by decide)).1 rfl,
   (upgradeWindowCorrection baseEnv msgFilled 5 7).1 (by decide)⟩

/-- C9: the payment-channel special case of `evalMessageGasLimit` adds
exactly 76,000 gas when the target actor is a payment channel and the method
is `Collect`; a non-matching actor kind or method adds 0; and every
state-lookup failure (parent-state error, actor-lookup error, actor not
found) is swallowed — the refund step leaves the gas unchanged and the
estimation still succeeds whenever the evaluation itself succeeded. -/
theorem paychCollectRefundPolicy (env : MpoolEnv) (m : Message) (ts : Nat)
    (ret : Int) (priorMsgs : List Message) :
    (∀ sm, env.lookup ts = .found sm true → m.method = methodsPaychCollect →
       paychCollectRefund env m ts ret = ret + 76000) ∧
    (∀ sm pc, env.lookup ts = .found sm pc →
       pc = false ∨ m.method ≠ methodsPaychCollect →
       paychCollectRefund env m ts ret = ret) ∧
    (∀ e, env.lookup ts = .stateErr e → paychCollectRefund env m ts ret = ret) ∧
    (∀ e, env.lookup ts = .actorErr e → paychCollectRefund env m ts ret = ret) ∧
    (env.lookup ts = .notFound → paychCollectRefund env m ts ret = ret) ∧
    (∀ tr : Nat × InvocResult,
       callWithGasLoop env (probeMessage m) priorMsgs ts = .ok tr →
       tr.2.exitCode = 0 →
       evalMessageGasLimit env m priorMsgs ts =
         .ok (applyGasCorrections env m tr.1 tr.2.gasUsed)) := by
  refine ⟨?_, ?_, ?_, ?_, ?_, ?_⟩
  · intro sm hl hm
    unfold paychCollectRefund
    rw [hl]
    simp [hm]
  · intro sm pc hl hrest
    unfold paychCollectRefund
    rw [hl]
    cases hrest with
    | inl hpc => subst hpc; simp
    | inr hm => simp [hm]
  · intro e hl; unfold paychCollectRefund; rw [hl]
  · intro e hl; unfold paychCollectRefund; rw [hl]
  · intro hl; unfold paychCollectRefund; rw [hl]
  · intro tr hloop hexit
    unfold evalMessageGasLimit
    rw [hloop]
    simp [hexit]

/-- Environment whose actor lookup finds a payment-channel actor. -/
def envPaychActor : MpoolEnv := { baseEnv with lookup := fun _ => .found false true }

/-- A payment-channel `Collect` message. -/
def msgCollect : Message := { msgFilled with method := methodsPaychCollect }

/-- Witness for C9 at a concrete input: with a payment-channel actor found,
a `Collect` message gets `5 + 76000` while a `MethodSend` message keeps 5,
and `baseEnv`'s not-found lookup also keeps 5; a successful evaluation is
returned with the corrections applied. -/
theorem paychCollectRefundPolicy_witness :
    paychCollectRefund envPaychActor msgCollect 0 5 = 5 + 76000 ∧
    paychCollectRefund envPaychActor msgFilled 0 5 = 5 ∧
    paychCollectRefund baseEnv msgCollect 0 5 = 5 ∧
    evalMessageGasLimit baseEnv msgFilled [] 0 =
      .ok (applyGasCorrections baseEnv msgFilled 0 0) :=
  ⟨(paychCollectRefundPolicy envPaychActor msgCollect 0 5 []).1 false rfl rfl,
   (paychCollectRefundPolicy envPaychActor msgFilled 0 5 []).2.1 false true rfl
     (Or.inr (by decide)),
   (paychCollectRefundPolicy baseEnv msgCollect 0 5 []).2.2.2.2.1 rfl,
   (paychCollectRefundPolicy baseEnv msgFilled 0 5 []).2.2.2.2.2 (0, ⟨0, 0, ""⟩) rfl rfl⟩

/-- C2 (amended): the probe message actually handed to the external evaluator
by `evalMessageGasLimit` keeps every field of the input except that
`gasLimit` is the block gas limit, `gasFeeCap` is zero and `gasPremium` is
zero (the `MinimumBaseFee+1` / `1` values are set only on a discarded
intermediate copy in `GasEstimateGasLimit`); `evalMessageGasLimit` consults
the evaluator exclusively through this probe. -/
theorem probeMessageFields (m : Message) (env : MpoolEnv)
    (priorMsgs : List Message) (ts : Nat) :
    (probeMessage m).gasLimit = blockGasLimit ∧
    (probeMessage m).gasFeeCap = some 0 ∧
    (probeMessage m).gasPremium = some 0 ∧
    (probeMessage m).fromAddr = m.fromAddr ∧
    (probeMessage m).toAddr = m.toAddr ∧
    (probeMessage m).method = m.method ∧
    (probeMessage m).params = m.params ∧
    (probeMessage m).value = m.value ∧
    (probeMessage m).nonce = m.nonce ∧
    evalMessageGasLimit env m priorMsgs ts =
      (match callWithGasLoop env (probeMessage m) priorMsgs ts with
       | .error e => .error e
       | .ok tr =>
         if tr.2.exitCode ≠ 0 then
           .error ("message execution failed: exit " ++ toString tr.2.exitCode ++
                   ", reason: " ++ tr.2.errMsg)
         else .ok (applyGasCorrections env m tr.1 tr.2.gasUsed)) :=
  ⟨rfl, rfl, rfl, rfl, rfl, rfl, rfl, rfl, rfl, rfl⟩

/-- C2 counterexample: with an evaluator that echoes the received message's
premium and fee cap (`premium*1000 + feeCap`) as its gas figure, estimation
reports 0 — the evaluator saw premium 0 and fee cap 0 — whereas the claimed
probe fields (`gasPremium = 1`, `gasFeeCap = MinimumBaseFee + 1`) would have
produced 1101. -/
theorem probeFeesCounterexample :
    evalMessageGasLimit envEchoFees msgFilled [] 0 = .ok 0 ∧
    (1 : Int) * 1000 + (minimumBaseFee + 1) = 1101 ∧
    (0 : Int) ≠ 1101 := by
  exact ⟨by decide, by decide, by decide⟩

theorem capGasFee_nonce (maxFee : Int) (m : Message) :
    (capGasFee maxFee m).nonce = m.nonce := rfl

theorem fillGasPremium_nonce (env : MpoolEnv) (msg : Message)
    (spec : Option EstimateSpec) (lbl : String) (m' : Message)
    (h : fillGasPremium env msg spec lbl = .ok m') : m'.nonce = msg.nonce := by
  unfold fillGasPremium at h
  split at h
  · split at h
    · exact absurd h (by simp)
    · simp only [Except.ok.injEq] at h
      subst h
      rfl
  · simp only [Except.ok.injEq] at h
    subst h
    rfl

theorem fillGasFeeCap_nonce (env : MpoolEnv) (msg : Message) (m' : Message)
    (h : fillGasFeeCap env msg = .ok m') : m'.nonce = msg.nonce := by
  unfold fillGasFeeCap at h
  split at h
  · split at h
    · exact absurd h (by simp)
    · simp only [Except.ok.injEq] at h
      subst h
      rfl
  · simp only [Except.ok.injEq] at h
    subst h
    rfl

theorem batchGasLimitStage_nonce (env : MpoolEnv) (msg : Message)
    (spec : Option EstimateSpec) (prior : List Message) (ts : Nat) (m' : Message)
    (h : batchGasLimitStage env msg spec prior ts = .ok (.inr m')) :
    m'.nonce = msg.nonce := by
  unfold batchGasLimitStage at h
  split at h
  · split at h
    · exact absurd h (by simp)
    · split at h
      · exact absurd h (by simp)
      · simp only [Except.ok.injEq, Sum.inr.injEq] at h
        subst h
        rfl
  · simp only [Except.ok.injEq, Sum.inr.injEq] at h
    subst h
    rfl

theorem batchPremiumStage_nonce (env : MpoolEnv) (msg : Message)
    (spec : Option EstimateSpec) (m' : Message)
    (h : batchPremiumStage env msg spec = .inr m') : m'.nonce = msg.nonce := by
  unfold batchPremiumStage at h
  cases hf : fillGasPremium env msg spec "estimating gas premium: " with
  | error e => rw [hf] at h; exact absurd h (by simp)
  | ok m =>
    rw [hf] at h
    simp only [Sum.inr.injEq] at h
    subst h
    exact fillGasPremium_nonce _ _ _ _ _ hf

theorem batchFeeCapStage_nonce (env : MpoolEnv) (msg : Message) (m' : Message)
    (h : batchFeeCapStage env msg = .inr m') : m'.nonce = msg.nonce := by
  unfold batchFeeCapStage at h
  cases hf : fillGasFeeCap env msg with
  | error e => rw [hf] at h; exact absurd h (by simp)
  | ok m =>
    rw [hf] at h
    simp only [Sum.inr.injEq] at h
    subst h
    exact fillGasFeeCap_nonce _ _ _ hf

theorem batchEstimateStep_cases (env : MpoolEnv) (em : EstimateMessage)
    (prior : List Message) (ts n : Nat) :
    (∀ m e, batchEstimateStep env em prior ts n = .ok (.failed m e) → m.nonce = 0) ∧
    (∀ m, batchEstimateStep env em prior ts n = .ok (.success m) → m.nonce = n) := by
  constructor
  · intro m e h
    unfold batchEstimateStep at h
    dsimp only at h
    split at h
    · exact absurd h (by simp)
    · simp only [Except.ok.injEq, BatchStepOut.failed.injEq] at h
      rw [← h.1]
    · split at h
      · simp only [Except.ok.injEq, BatchStepOut.failed.injEq] at h
        rw [← h.1]
      · split at h
        · simp only [Except.ok.injEq, BatchStepOut.failed.injEq] at h
          rw [← h.1]
        · exact absurd h (by simp)
  · intro m h
    unfold batchEstimateStep at h
    dsimp only at h
    split at h
    · exact absurd h (by simp)
    · exact absurd h (by simp)
    · rename_i m1 heq1
      split at h
      · exact absurd h (by simp)
      · rename_i m2 heq2
        split at h
        · exact absurd h (by simp)
        · rename_i m3 heq3
          simp only [Except.ok.injEq, BatchStepOut.success.injEq] at h
          subst h
          rw [capGasFee_nonce, batchFeeCapStage_nonce _ _ _ heq3,
            batchPremiumStage_nonce _ _ _ _ heq2,
            batchGasLimitStage_nonce _ _ _ _ _ _ heq1]

theorem batchEstimateLoop_length (env : MpoolEnv) (ts : Nat) :
    ∀ (ems : List EstimateMessage) (prior : List Message) (n : Nat)
      (rs : List EstimateResult),
      batchEstimateLoop env ts ems prior n = .ok rs → rs.length = ems.length := by
  intro ems
  induction ems with
  | nil =>
    intro prior n rs h
    simp only [batchEstimateLoop, Except.ok.injEq] at h
    subst h
    rfl
  | cons em rest ih =>
    intro prior n rs h
    unfold batchEstimateLoop at h
    split at h
    · exact absurd h (by simp)
    · split at h
      · exact absurd h (by simp)
      · rename_i rs' hrec
        simp only [Except.ok.injEq] at h
        subst h
        simp [ih prior n rs' hrec]
    · split at h
      · exact absurd h (by simp)
      · rename_i m rs' hrec
        simp only [Except.ok.injEq] at h
        subst h
        simp only [List.length_cons]
        congr 1
        exact ih _ _ rs' hrec

theorem batchEstimateLoop_nonces (env : MpoolEnv) (ts : Nat) :
    ∀ (ems : List EstimateMessage) (prior : List Message) (n : Nat)
      (rs : List EstimateResult),
      batchEstimateLoop env ts ems prior n = .ok rs →
      rs.map (fun r => r.msg.nonce) = specNonces n (rs.map (fun r => r.err.isNone)) := by
  intro ems
  induction ems with
  | nil =>
    intro prior n rs h
    simp only [batchEstimateLoop, Except.ok.injEq] at h
    subst h
    rfl
  | cons em rest ih =>
    intro prior n rs h
    unfold batchEstimateLoop at h
    split at h
    · exact absurd h (by simp)
    · rename_i m emsg hstep
      split at h
      · exact absurd h (by simp)
      · rename_i rs' hrec
        simp only [Except.ok.injEq] at h
        subst h
        have hm : m.nonce = 0 := (batchEstimateStep_cases env em prior ts n).1 m emsg hstep
        simp only [List.map_cons, Option.isNone_some, specNonces]
        rw [hm]
        exact congrArg (List.cons 0) (ih prior n rs' hrec)
    · rename_i m hstep
      split at h
      · exact absurd h (by simp)
      · rename_i rs' hrec
        simp only [Except.ok.injEq] at h
        subst h
        have hm : m.nonce = n := (batchEstimateStep_cases env em prior ts n).2 m hstep
        simp only [List.map_cons, Option.isNone_none, specNonces]
        rw [hm]
        exact congrArg (List.cons n) (ih (prior ++ [m]) (n + 1) rs' hrec)

/-- C1 (amended): in one `GasBatchEstimateMessageGas` call the results appear
in input order and the nonces of the *successfully estimated* messages are
consecutive starting at the caller-supplied base nonce; a failed message's
result carries the unset sentinel (0) and does *not* consume a nonce — the
loop increments the running nonce only on success, so the next success reuses
the failed slot's nonce (for a 5-message batch at `startNonce = 10` with
message 3 failing: `[10, 11, 0, 12, 13]`, not `[10, 11, 0, 13, 14]`). -/
theorem batchNonceAssignment (env : MpoolEnv) (ems : List EstimateMessage)
    (fromNonce tsk : Nat) (rs : List EstimateResult)
    (h : gasBatchEstimateMessageGas env ems fromNonce tsk = .ok rs) :
    rs.length = ems.length ∧
    rs.map (fun r => r.msg.nonce) =
      specNonces fromNonce (rs.map (fun r => r.err.isNone)) := by
  unfold gasBatchEstimateMessageGas at h
  split at h
  · exact absurd h (by simp)
  · split at h
    · exact absurd h (by simp)
    · split at h
      · exact absurd h (by simp)
      · exact ⟨batchEstimateLoop_length env _ _ _ _ _ h,
          batchEstimateLoop_nonces env _ _ _ _ _ h⟩

/-- Witness for C1 at a concrete input: a one-message batch at base nonce 10
succeeds and its single result carries nonce 10. -/
theorem batchNonceAssignment_witness :
    ([⟨{ msgFilled with nonce := 10 }, none⟩] : List EstimateResult).length =
      ([⟨msgFilled, none⟩] : List EstimateMessage).length ∧
    ([⟨{ msgFilled with nonce := 10 }, none⟩] : List EstimateResult).map
        (fun r => r.msg.nonce) =
      specNonces 10
        (([⟨{ msgFilled with nonce := 10 }, none⟩] : List EstimateResult).map
          (fun r => r.err.isNone)) :=
  batchNonceAssignment baseEnv [⟨msgFilled, none⟩] 10 0
    [⟨{ msgFilled with nonce := 10 }, none⟩] (by decide)

/-- C1 counterexample: for the spec's own 5-message batch with
`startNonce = 10` and message 3 forced to fail, the returned nonces are
`[10, 11, 0, 12, 13]` — the nonce is not advanced past a failed message, so
the claimed `[10, 11, <unset>, 13, 14]` does not hold. -/
theorem batchNonceCounterexample :
    (gasBatchEstimateMessageGas envCallFails batchFiveMsgs 10 0).map
      (List.map fun r => r.msg.nonce) = .ok [10, 11, 0, 12, 13] ∧
    (gasBatchEstimateMessageGas envCallFails batchFiveMsgs 10 0).map
      (List.map fun r => r.msg.nonce) ≠ .ok [10, 11, 0, 13, 14] := by
  exact ⟨by decide, by decide⟩

/-- C3 (amended): only the single-message path (`GasEstimateMessageGas`)
falls back to the pool-default over-estimation multiplier when the spec is
absent or its `gasOverEstimation` is not positive; the batch path
(`GasBatchEstimateMessageGas`) applies the message's own
`Spec.GasOverEstimation` unconditionally — a zero multiplier yields a zero
gas limit and an absent spec is a nil-pointer panic aborting the whole batch
call — so the claimed pool-default fallback does not hold there. -/
theorem gasLimitOverestimationPolicy (env : MpoolEnv) (msg : Message)
    (sp : EstimateSpec) (prior : List Message) (ts : Nat) (g : Int)
    (h0 : msg.gasLimit = 0) :
    (gasEstimateGasLimit env msg none = .ok g →
       fillGasLimitSingle env msg none =
         .ok { msg with gasLimit := goTruncMulQ g env.gasLimitOverestimation } ∧
       (¬ 0 < sp.gasOverEstimation →
          fillGasLimitSingle env msg (some sp) =
            .ok { msg with gasLimit := goTruncMulQ g env.gasLimitOverestimation }) ∧
       (0 < sp.gasOverEstimation →
          fillGasLimitSingle env msg (some sp) =
            .ok { msg with gasLimit := goTruncMulQ g sp.gasOverEstimation })) ∧
    (evalMessageGasLimit env msg prior ts = .ok g →
       batchGasLimitStage env msg (some sp) prior ts =
         .ok (.inr { msg with gasLimit := goTruncMulQ g sp.gasOverEstimation }) ∧
       batchGasLimitStage env msg none prior ts =
         .error "panic: runtime error: invalid memory address or nil pointer dereference") := by
  constructor
  · intro hest
    refine ⟨?_, ?_, ?_⟩
    · unfold fillGasLimitSingle
      rw [if_pos h0, hest]
    · intro hsp
      unfold fillGasLimitSingle
      rw [if_pos h0, hest]
      simp [hsp]
    · intro hsp
      unfold fillGasLimitSingle
      rw [if_pos h0, hest]
      simp [hsp]
  · intro heval
    constructor
    · unfold batchGasLimitStage
      rw [if_pos h0, heval]
    · unfold batchGasLimitStage
      rw [if_pos h0, heval]

/-- Witness for C3 at a concrete input: with the evaluator reporting 1000
gas, the single path multiplies by the pool default (1.25, giving 1250) when
no spec is supplied, while the batch stage with a zero-multiplier spec sets
the gas limit to `goTruncMulQ 1000 0`. -/
theorem gasLimitOverestimationPolicy_witness :
    fillGasLimitSingle envCall1000 msgNoLimit none =
      .ok { msgNoLimit with gasLimit := goTruncMulQ 1000 envCall1000.gasLimitOverestimation } ∧
    batchGasLimitStage envCall1000 msgNoLimit (some ⟨0, 0⟩) [] 0 =
      .ok (.inr { msgNoLimit with gasLimit := goTruncMulQ 1000 (0 : ℚ) }) :=
  ⟨((gasLimitOverestimationPolicy envCall1000 msgNoLimit ⟨0, 0⟩ [] 0 1000 rfl).1
      (by decide)).1,
   ((gasLimitOverestimationPolicy envCall1000 msgNoLimit ⟨0, 0⟩ [] 0 1000 rfl).2
      (by decide)).1⟩

/-- C3 counterexample: a one-message batch whose spec carries
`gasOverEstimation = 0` comes back with gas limit 0, although the pool
default (1.25 over 1000 simulated gas) would give 1250 — the batch path never
consults the pool default. -/
theorem batchIgnoresDefaultOverestimation :
    (gasBatchEstimateMessageGas envCall1000 [⟨msgNoLimit, some ⟨0, 0⟩⟩] 0 0).map
      (List.map fun r => r.msg.gasLimit) = .ok [0] ∧
    goTruncMulQ 1000 envCall1000.gasLimitOverestimation = 1250 ∧
    (0 : Int) ≠ 1250 := by
  exact ⟨by decide, by decide, by decide⟩

end VenusGas
